import Mathlib

/-!
Verification of the SkePU MapPairs OpenCL code generator
(`src/skepu-tool/mappairs_cl.cpp`, with CLI globals in `src/skepu-tool/skepu.cpp`).

The generator consumes front-end metadata about a user function
(`UserFunction`) and emits one OpenCL kernel source artifact plus a host
dispatch wrapper.  Definitions below are shallow embeddings of the generator's
data model, its string-building passes, and the behaviour of the generated
kernel / wrapper code.  Helper routines declared in headers that are not part
of the two shown translation units (`code_gen.h`, `visitor.h`) are modelled
from the specification and marked as such in their doc comments.
-/

namespace SkePU

/-- Container kinds distinguished by the generator's `switch` over
`param.containerType` (mappairs_cl.cpp lines 121-179) and by the per-kind
proxy emission loops (lines 197-213). -/
inductive ContainerType where
  | Vector
  | Matrix
  | MatRow
  | Tensor3
  | Tensor4
  | SparseMatrix
deriving DecidableEq

/-- An elementwise or scalar parameter of a user function: its source name and
its resolved element type name. -/
structure Param where
  name : String
  resolvedTypeName : String
deriving DecidableEq

/-- A random-access (container) parameter of a user function. -/
structure RandomAccessParam where
  name : String
  resolvedTypeName : String
  containerType : ContainerType
deriving DecidableEq

/-- A user-defined type referenced from a user function.  Modelled from the
spec: the front-end records each referenced user type together with its
textual definition (spec section 6). -/
structure UserType where
  name : String
  definitionText : String
deriving DecidableEq

/-- A user-declared constant as registered by the front-end
(`UserConstants` in skepu.cpp line 46); the generator reads the fields
`name`, `definition` and `typeName` (mappairs_cl.cpp line 217). -/
structure UserConstant where
  name : String
  definition : String
  typeName : String
deriving DecidableEq

/-- The metadata of one user function, as consumed by
`createMapPairsKernelProgram_CL` (mappairs_cl.cpp lines 81-249).  The two
indexing flags mirror `mapFunc.indexed1D` / `mapFunc.indexed2D`; `Varity` is
the member `mapFunc.Varity` read on line 108. -/
structure UserFunction where
  uniqueName : String
  resolvedReturnTypeName : String
  indexed1D : Bool
  indexed2D : Bool
  requiresDoublePrecision : Bool
  Varity : Nat
  elwiseParams : List Param
  anyContainerParams : List RandomAccessParam
  anyScalarParams : List Param
  ReferencedUTs : List UserType
deriving DecidableEq

/-!
## The user-function call argument list (`SSMapFuncParams`)

The source threads a `first` flag through the index clause (lines 88-99) and
the three parameter loops (lines 102-113, 115-182, 184-192); every append of
an argument to the `SSMapFuncParams` stream is preceded by `", "` unless it is
the first one.  `appendMapArg` is one such append.
-/

/-- One append of an argument to the `SSMapFuncParams` stream: emit `", "`
first unless the `first` flag (second component) is still set, then the
argument; the flag is cleared. -/
def appendMapArg (s : String × Bool) (arg : String) : String × Bool :=
  ((if s.2 then s.1 else s.1 ++ ", ") ++ arg, false)

/-- The call-argument text of the elementwise parameter at position `ctr`
(mappairs_cl.cpp lines 108-111): the first `mapFunc.Varity` elementwise
parameters are vertical and are accessed at `i / Hsize`, the remaining ones
are horizontal and are accessed at `i % Hsize`. -/
def elwiseArg (uf : UserFunction) (ctr : Nat) (p : Param) : String :=
  if ctr < uf.Varity then p.name ++ "[i / Hsize]" else p.name ++ "[i % Hsize]"

/-- The complete `SSMapFuncParams` text (mappairs_cl.cpp lines 88-192): the
index argument when indexed, then each elementwise parameter's access
expression, then each container parameter's proxy name, then each scalar
parameter's name, comma separated via the `first` flag machine. -/
def SSMapFuncParams (uf : UserFunction) : String :=
  let s0 : String × Bool :=
    if uf.indexed1D then ("index", false)
    else if uf.indexed2D then ("index", false)
    else ("", true)
  let s1 := uf.elwiseParams.enum.foldl (fun s q => appendMapArg s (elwiseArg uf q.1 q.2)) s0
  let s2 := uf.anyContainerParams.foldl (fun s p => appendMapArg s p.name) s1
  let s3 := uf.anyScalarParams.foldl (fun s p => appendMapArg s p.name) s2
  s3.1

/-- Comma-separated rendering of an argument list: the first item plainly,
every later item preceded by `", "`. -/
def commaSeparated : List String → String
  | [] => ""
  | a :: rest => rest.foldl (fun acc x => acc ++ ", " ++ x) a

/-- The argument list the specification describes: index first (if indexed),
then elementwise accesses in declared order, then container proxy names, then
scalar names. -/
def mapFuncArgList (uf : UserFunction) : List String :=
  (if uf.indexed1D || uf.indexed2D then ["index"] else [])
    ++ uf.elwiseParams.enum.map (fun q => elwiseArg uf q.1 q.2)
    ++ uf.anyContainerParams.map (fun p => p.name)
    ++ uf.anyScalarParams.map (fun p => p.name)

/-- The concrete pairwise-vector-map scenario from the specification: one
vertical elementwise parameter `a`, one horizontal elementwise parameter `b`,
no indexing, `Varity = 1`. -/
def scenarioPairUF : UserFunction :=
  { uniqueName := "uf"
    resolvedReturnTypeName := "float"
    indexed1D := false
    indexed2D := false
    requiresDoublePrecision := false
    Varity := 1
    elwiseParams := [⟨"a", "float"⟩, ⟨"b", "float"⟩]
    anyContainerParams := []
    anyScalarParams := []
    ReferencedUTs := [] }

lemma foldl_appendMapArg_false (s : String) (args : List String) :
    args.foldl appendMapArg (s, false)
      = (args.foldl (fun acc x => acc ++ ", " ++ x) s, false) := by
  induction args generalizing s with
  | nil => rfl
  | cons a rest ih =>
      show rest.foldl appendMapArg (s ++ ", " ++ a, false) = _
      rw [ih]
      rfl

lemma foldl_appendMapArg_first (s : String) (args : List String) :
    (args.foldl appendMapArg (s, false)).1 = commaSeparated (s :: args) := by
  rw [foldl_appendMapArg_false]; rfl

lemma foldl_appendMapArg_fresh (args : List String) :
    (args.foldl appendMapArg ("", true)).1 = commaSeparated args := by
  cases args with
  | nil => rfl
  | cons a rest =>
      show (rest.foldl appendMapArg ("" ++ a, false)).1 = _
      rw [String.empty_append, foldl_appendMapArg_first]

lemma stage_elwise (uf : UserFunction) (l : List (Nat × Param)) (s : String × Bool) :
    l.foldl (fun s q => appendMapArg s (elwiseArg uf q.1 q.2)) s
      = (l.map (fun q => elwiseArg uf q.1 q.2)).foldl appendMapArg s := by
  induction l generalizing s with
  | nil => rfl
  | cons a rest ih => simp only [List.foldl_cons, List.map_cons, ih]

lemma stage_container (l : List RandomAccessParam) (s : String × Bool) :
    l.foldl (fun s p => appendMapArg s p.name) s
      = (l.map (fun p => p.name)).foldl appendMapArg s := by
  induction l generalizing s with
  | nil => rfl
  | cons a rest ih => simp only [List.foldl_cons, List.map_cons, ih]

lemma stage_scalar (l : List Param) (s : String × Bool) :
    l.foldl (fun s p => appendMapArg s p.name) s
      = (l.map (fun p => p.name)).foldl appendMapArg s := by
  induction l generalizing s with
  | nil => rfl
  | cons a rest ih => simp only [List.foldl_cons, List.map_cons, ih]

/-- **C1.** The call-argument text passed to the user function in the
generated kernel (`SSMapFuncParams`, substituted for `SKEPU_MAP_PARAMS`)
lists, comma separated and in this order: the index argument when the
function is indexed, then every elementwise parameter in declared order
accessed at `i / Hsize` when its position is below `Varity` (vertical) and at
`i % Hsize` otherwise (horizontal), then every container parameter's proxy
name, then every scalar parameter's name.  In the pairwise-vector-map
scenario (vertical `a`, horizontal `b`, no indexing, `Varity = 1`) the text
is exactly `a[i / Hsize], b[i % Hsize]`. -/
theorem C1_map_func_params_order :
    (∀ uf : UserFunction, SSMapFuncParams uf = commaSeparated (mapFuncArgList uf))
    ∧ SSMapFuncParams scenarioPairUF = "a[i / Hsize], b[i % Hsize]" := by
  constructor
  · intro uf
    dsimp only [SSMapFuncParams]
    rw [stage_elwise, stage_container, stage_scalar, ← List.foldl_append, ← List.foldl_append]
    unfold mapFuncArgList
    cases h1 : uf.indexed1D with
    | true =>
        rw [Bool.true_or, if_pos rfl, if_pos rfl, foldl_appendMapArg_first]
        simp [List.append_assoc]
    | false =>
        cases h2 : uf.indexed2D with
        | true =>
            rw [Bool.false_or, if_neg (by decide), if_pos rfl, if_pos rfl,
              foldl_appendMapArg_first]
            simp [List.append_assoc]
        | false =>
            rw [Bool.false_or, if_neg (by decide), if_neg (by decide), if_neg (by decide),
              foldl_appendMapArg_fresh]
            simp [List.append_assoc]
  · rfl

/-!
## The grid-stride loop of the generated kernel

The kernel template (`MapPairsKernelTemplate_CL`, mappairs_cl.cpp lines 9-24)
runs, in each worker, `i = get_global_id(0); while (i < n) { ...; i += gridSize; }`
where `gridSize` is the total worker count.
-/

/-- One worker's loop: starting at index `i`, visit `i` while `i < n`, then
advance by the stride `W`.  `fuel` bounds the iteration count so the
definition is total; `workerVisits` supplies fuel `n`, which suffices for any
positive stride. -/
def visitLoop : Nat → Nat → Nat → Nat → List Nat
  | 0, _, _, _ => []
  | fuel + 1, i, W, n => if i < n then i :: visitLoop fuel (i + W) W n else []

/-- The indices visited by the worker with global id `g` among `W` workers
over `n` elements: `g, g + W, g + 2W, ...` while below `n`. -/
def workerVisits (g W n : Nat) : List Nat :=
  visitLoop n g W n

lemma visitLoop_mem {W n k : Nat} (hW : 0 < W) :
    ∀ (fuel i : Nat), n ≤ i + fuel →
      (k ∈ visitLoop fuel i W n ↔ i ≤ k ∧ k < n ∧ W ∣ (k - i)) := by
  intro fuel
  induction fuel with
  | zero =>
      intro i hfuel
      simp only [visitLoop, List.not_mem_nil, false_iff]
      rintro ⟨h1, h2, -⟩
      omega
  | succ f ih =>
      intro i hfuel
      by_cases hin : i < n
      · rw [visitLoop, if_pos hin, List.mem_cons, ih (i + W) (by omega)]
        constructor
        · rintro (rfl | ⟨h1, h2, hd⟩)
          · exact ⟨Nat.le_refl _, hin, by simp⟩
          · refine ⟨by omega, h2, ?_⟩
            have hsum : (k - (i + W)) + W = k - i := by omega
            exact hsum ▸ Nat.dvd_add hd (Nat.dvd_refl W)
        · rintro ⟨h1, h2, hd⟩
          by_cases hk : k = i
          · exact Or.inl hk
          · refine Or.inr ⟨?_, h2, ?_⟩
            · have := Nat.le_of_dvd (by omega) hd
              omega
            · have := Nat.dvd_sub' hd (Nat.dvd_refl W)
              have hrw : k - i - W = k - (i + W) := by omega
              exact hrw ▸ this
      · rw [visitLoop, if_neg hin]
        simp only [List.not_mem_nil, false_iff]
        rintro ⟨h1, h2, -⟩
        omega

lemma visitLoop_lb {W n : Nat} :
    ∀ (fuel i : Nat) (x : Nat), x ∈ visitLoop fuel i W n → i ≤ x := by
  intro fuel
  induction fuel with
  | zero => intro i x hx; simp [visitLoop] at hx
  | succ f ih =>
      intro i x hx
      rw [visitLoop] at hx
      by_cases hin : i < n
      · rw [if_pos hin, List.mem_cons] at hx
        rcases hx with rfl | hx
        · exact Nat.le_refl _
        · exact Nat.le_trans (Nat.le_add_right i W) (ih (i + W) x hx)
      · rw [if_neg hin] at hx
        simp at hx

lemma visitLoop_nodup {W n : Nat} (hW : 0 < W) :
    ∀ (fuel i : Nat), (visitLoop fuel i W n).Nodup := by
  intro fuel
  induction fuel with
  | zero => intro i; simp [visitLoop]
  | succ f ih =>
      intro i
      rw [visitLoop]
      by_cases hin : i < n
      · rw [if_pos hin]
        refine List.nodup_cons.mpr ⟨fun hmem => ?_, ih (i + W)⟩
        have := visitLoop_lb f (i + W) i hmem
        omega
      · rw [if_neg hin]; exact List.nodup_nil

/-- **C2.** For every element count `n` and positive worker count `W`, the
grid-stride loop visits, over all workers `g < W` together, every index in
`{0, ..., n-1}`, each index is visited by exactly one worker, and no single
worker visits any index twice. -/
theorem C2_grid_stride_coverage (n W : Nat) (hW : 0 < W) :
    (∀ k, k < n ↔ ∃ g, g < W ∧ k ∈ workerVisits g W n)
    ∧ (∀ g g' k, g < W → g' < W →
        k ∈ workerVisits g W n → k ∈ workerVisits g' W n → g = g')
    ∧ (∀ g, g < W → (workerVisits g W n).Nodup) := by
  have hmem : ∀ g k, k ∈ workerVisits g W n ↔ g ≤ k ∧ k < n ∧ W ∣ (k - g) := by
    intro g k
    exact visitLoop_mem hW n g (by omega)
  refine ⟨?_, ?_, ?_⟩
  · intro k
    constructor
    · intro hk
      refine ⟨k % W, Nat.mod_lt _ hW, (hmem _ _).mpr ⟨Nat.mod_le _ _, hk, k / W, ?_⟩⟩
      exact Nat.sub_eq_of_eq_add (Nat.div_add_mod k W).symm
    · rintro ⟨g, -, hg⟩
      exact ((hmem _ _).mp hg).2.1
  · intro g g' k hg hg' hk hk'
    obtain ⟨h1, -, hd⟩ := (hmem _ _).mp hk
    obtain ⟨h1', -, hd'⟩ := (hmem _ _).mp hk'
    have e1 : g % W = k % W := (Nat.modEq_iff_dvd' h1).mpr hd
    have e1' : g' % W = k % W := (Nat.modEq_iff_dvd' h1').mpr hd'
    rw [Nat.mod_eq_of_lt hg] at e1
    rw [Nat.mod_eq_of_lt hg'] at e1'
    omega
  · intro g _
    exact visitLoop_nodup hW n g

/-- Witness for C2 at `n = 7`, `W = 3`. -/
theorem C2_grid_stride_coverage_witness :
    0 < 3
    ∧ ((∀ k, k < 7 ↔ ∃ g, g < 3 ∧ k ∈ workerVisits g 3 7)
      ∧ (∀ g g' k, g < 3 → g' < 3 →
          k ∈ workerVisits g 3 7 → k ∈ workerVisits g' 3 7 → g = g')
      ∧ (∀ g, g < 3 → (workerVisits g 3 7).Nodup)) :=
  ⟨by decide, C2_grid_stride_coverage 7 3 (by decide)⟩

/-!
## The index initializer (`SKEPU_INDEX_INITIALIZER`)
-/

/-- The `indexInitializer` text chosen by the generator
(mappairs_cl.cpp lines 84-99): the 1D form when `indexed1D`, else the
row/column form when `indexed2D`, else empty. -/
def indexInitializer (uf : UserFunction) : String :=
  if uf.indexed1D then "index1_t index = \x7b .i = base + i \x7d;"
  else if uf.indexed2D then
    "index2_t index = \x7b .row = (base + i) / w, .col = (base + i) % w \x7d;"
  else ""

/-- A two-dimensional index value as computed by the emitted `index2_t`
initializer. -/
structure Index2 where
  row : Nat
  col : Nat
deriving DecidableEq

/-- The arithmetic of the emitted RowCol initializer: from the launch base
offset, the worker's loop index `i` and the row width `w`, it computes
`row = (base + i) / w` and `col = (base + i) % w`. -/
def mkIndex2 (base i w : Nat) : Index2 :=
  ⟨(base + i) / w, (base + i) % w⟩

/-- **C7.** For RowCol (2D) indexing, the generated index initializer
computes `row = (base + i) / w` and `col = (base + i) % w`; at row width 4,
base 0 and worker index 5 the computed index has `row = 1` and `col = 1`. -/
theorem C7_rowcol_index_initializer (uf : UserFunction)
    (h1 : uf.indexed1D = false) (h2 : uf.indexed2D = true) :
    indexInitializer uf
      = "index2_t index = \x7b .row = (base + i) / w, .col = (base + i) % w \x7d;"
    ∧ mkIndex2 0 5 4 = ⟨1, 1⟩ := by
  refine ⟨?_, rfl⟩
  rw [indexInitializer, h1, h2]
  rfl

/-- The RowCol-indexed scenario user function from the specification. -/
def scenarioRowColUF : UserFunction :=
  { uniqueName := "uf2"
    resolvedReturnTypeName := "float"
    indexed1D := false
    indexed2D := true
    requiresDoublePrecision := false
    Varity := 1
    elwiseParams := [⟨"a", "float"⟩]
    anyContainerParams := []
    anyScalarParams := []
    ReferencedUTs := [] }

/-- Witness for C7 at the concrete RowCol scenario function. -/
theorem C7_rowcol_index_initializer_witness :
    scenarioRowColUF.indexed1D = false ∧ scenarioRowColUF.indexed2D = true
    ∧ (indexInitializer scenarioRowColUF
        = "index2_t index = \x7b .row = (base + i) / w, .col = (base + i) % w \x7d;"
      ∧ mkIndex2 0 5 4 = ⟨1, 1⟩) :=
  ⟨rfl, rfl, C7_rowcol_index_initializer scenarioRowColUF rfl rfl⟩

/-!
## The naming service (`SSKernelName`, mappairs_cl.cpp lines 224-227)
-/

/-- Decimal digit characters of `n`, most significant digit first; the
recursion is bounded by `fuel` (`fuel = n` always suffices). -/
def natDecimalAux : Nat → Nat → List Char
  | 0, _ => []
  | fuel + 1, n =>
      if n = 0 then [] else natDecimalAux fuel (n / 10) ++ [Nat.digitChar (n % 10)]

/-- The decimal rendering of a `size_t` value as produced by `operator<<` on
the `SSKernelName` stream (mappairs_cl.cpp line 225). -/
def natDecimal (n : Nat) : String :=
  if n = 0 then "0" else ⟨natDecimalAux n n⟩

/-- The value read back from a digit string (most significant digit first). -/
def charsVal (l : List Char) : Nat :=
  l.foldl (fun acc c => acc * 10 + (c.toNat - 48)) 0

lemma charsVal_append_digit (l : List Char) (c : Char) :
    charsVal (l ++ [c]) = charsVal l * 10 + (c.toNat - 48) := by
  unfold charsVal
  rw [List.foldl_append]
  rfl

lemma digitChar_val {d : Nat} (h : d < 10) : (Nat.digitChar d).toNat - 48 = d := by
  interval_cases d <;> decide

lemma digitChar_isDigit {d : Nat} (h : d < 10) : (Nat.digitChar d).isDigit = true := by
  interval_cases d <;> decide

lemma natDecimalAux_val : ∀ fuel n, n ≤ fuel → charsVal (natDecimalAux fuel n) = n := by
  intro fuel
  induction fuel with
  | zero =>
      intro n hn
      interval_cases n
      rfl
  | succ f ih =>
      intro n hn
      by_cases h0 : n = 0
      · subst h0; rfl
      · rw [natDecimalAux, if_neg h0, charsVal_append_digit,
          ih (n / 10) (by omega), digitChar_val (Nat.mod_lt _ (by omega))]
        omega

lemma natDecimalAux_isDigit :
    ∀ fuel n, ∀ c ∈ natDecimalAux fuel n, c.isDigit = true := by
  intro fuel
  induction fuel with
  | zero => intro n c hc; simp [natDecimalAux] at hc
  | succ f ih =>
      intro n c hc
      by_cases h0 : n = 0
      · subst h0; simp [natDecimalAux] at hc
      · rw [natDecimalAux, if_neg h0] at hc
        rcases List.mem_append.mp hc with hc | hc
        · exact ih _ c hc
        · rw [List.mem_singleton.mp hc]
          exact digitChar_isDigit (Nat.mod_lt _ (by omega))

lemma natDecimal_isDigit {n : Nat} : ∀ c ∈ (natDecimal n).data, c.isDigit = true := by
  intro c hc
  unfold natDecimal at hc
  by_cases h0 : n = 0
  · rw [if_pos h0] at hc
    simp only [show ("0" : String).data = ['0'] from rfl, List.mem_singleton] at hc
    subst hc; decide
  · rw [if_neg h0] at hc
    exact natDecimalAux_isDigit n n c hc

lemma charsVal_natDecimal (n : Nat) : charsVal (natDecimal n).data = n := by
  unfold natDecimal
  by_cases h0 : n = 0
  · rw [if_pos h0, h0]; rfl
  · rw [if_neg h0]
    exact natDecimalAux_val n n (Nat.le_refl n)

lemma natDecimal_inj {m n : Nat} (h : natDecimal m = natDecimal n) : m = n := by
  have := congrArg (fun s => charsVal s.data) h
  simpa only [charsVal_natDecimal] using this

/-- Modelled from the spec: `transformToCXXIdentifier` (declared in
`code_gen.h`, not under `src/`) sanitizes the output base name into a valid
C++ identifier; non-identifier characters are replaced. -/
def transformToCXXIdentifier (s : String) : String :=
  ⟨s.data.map (fun c => if c.isAlphanum || c == '_' then c else '_')⟩

/-- The kernel name assembled into `SSKernelName` (mappairs_cl.cpp lines
224-226): sanitized output base name, the `_MapPairsKernel_` tag, the user
function's unique name, and the `Varity`/`Harity` shape. -/
def kernelName (resultName uniqueName : String) (Varity Harity : Nat) : String :=
  transformToCXXIdentifier resultName ++ "_MapPairsKernel_" ++ uniqueName
    ++ "_Varity_" ++ natDecimal Varity ++ "_Harity_" ++ natDecimal Harity

/-- The host wrapper class name (mappairs_cl.cpp line 227). -/
def className (resultName uniqueName : String) (Varity Harity : Nat) : String :=
  "CLWrapperClass_" ++ kernelName resultName uniqueName Varity Harity

/-- The `_Varity_` separator of the kernel name, as a character list. -/
def varitySep : List Char := ['_', 'V', 'a', 'r', 'i', 't', 'y', '_']

/-- The `_Harity_` separator of the kernel name, as a character list. -/
def haritySep : List Char := ['_', 'H', 'a', 'r', 'i', 't', 'y', '_']

lemma count_V_eq_zero {l : List Char} (hl : ∀ c ∈ l, c.isDigit = true) :
    l.count 'V' = 0 :=
  List.count_eq_zero.mpr (fun hmem => absurd (hl _ hmem) (by decide))

lemma sep_prefix_nil (v h rest w : List Char)
    (hv : ∀ c ∈ v, c.isDigit = true) (hh : ∀ c ∈ h, c.isDigit = true)
    (hrest : rest.count 'V' = 0)
    (heq : varitySep ++ (v ++ (haritySep ++ h)) = w ++ (varitySep ++ rest)) :
    w = [] := by
  cases w with
  | nil => rfl
  | cons c w' =>
      simp only [varitySep, List.cons_append, List.nil_append, List.cons.injEq] at heq
      obtain ⟨-, heq⟩ := heq
      cases w' with
      | nil =>
          simp only [List.nil_append, varitySep, List.cons_append, List.cons.injEq] at heq
          exact absurd heq.1 (by decide)
      | cons c2 w2 =>
          simp only [List.cons_append, List.cons.injEq] at heq
          obtain ⟨-, heq⟩ := heq
          have hcount := congrArg (List.count 'V') heq
          have hcV : v.count 'V' = 0 := count_V_eq_zero hv
          have hhV : h.count 'V' = 0 := count_V_eq_zero hh
          simp [List.count_append, List.count_cons, haritySep, hcV, hhV, hrest] at hcount

lemma digits_sep_cancel :
    ∀ v v' h h' : List Char,
      (∀ c ∈ v, c.isDigit = true) → (∀ c ∈ v', c.isDigit = true) →
      v ++ (haritySep ++ h) = v' ++ (haritySep ++ h') → v = v' ∧ h = h' := by
  intro v
  induction v with
  | nil =>
      intro v' h h' _ hv' heq
      cases v' with
      | nil =>
          simp only [List.nil_append] at heq
          exact ⟨rfl, List.append_cancel_left heq⟩
      | cons d t =>
          simp only [List.nil_append, haritySep, List.cons_append, List.cons.injEq] at heq
          have := hv' d (by simp)
          rw [← heq.1] at this
          exact absurd this (by decide)
  | cons c t ih =>
      intro v' h h' hv hv' heq
      cases v' with
      | nil =>
          simp only [List.nil_append, haritySep, List.cons_append, List.cons.injEq] at heq
          have := hv c (by simp)
          rw [heq.1] at this
          exact absurd this (by decide)
      | cons c' t' =>
          simp only [List.cons_append, List.cons.injEq] at heq
          obtain ⟨hc, heq⟩ := heq
          obtain ⟨h1, h2⟩ := ih t' h h' (fun x hx => hv x (by simp [hx]))
            (fun x hx => hv' x (by simp [hx])) heq
          exact ⟨by rw [hc, h1], h2⟩

lemma nameParts_inj (u u' v v' h h' : List Char)
    (hv : ∀ c ∈ v, c.isDigit = true) (hv' : ∀ c ∈ v', c.isDigit = true)
    (hh : ∀ c ∈ h, c.isDigit = true) (hh' : ∀ c ∈ h', c.isDigit = true)
    (heq : u ++ (varitySep ++ (v ++ (haritySep ++ h)))
         = u' ++ (varitySep ++ (v' ++ (haritySep ++ h')))) :
    u = u' ∧ v = v' ∧ h = h' := by
  have hcz : (v' ++ (haritySep ++ h')).count 'V' = 0 := by
    simp only [List.count_append]
    rw [count_V_eq_zero hv', count_V_eq_zero hh']
    simp [haritySep]
  have hcz' : (v ++ (haritySep ++ h)).count 'V' = 0 := by
    simp only [List.count_append]
    rw [count_V_eq_zero hv, count_V_eq_zero hh]
    simp [haritySep]
  have huu : u = u' := by
    rcases List.append_eq_append_iff.mp heq with ⟨w, hw, hrest⟩ | ⟨w, hw, hrest⟩
    · have := sep_prefix_nil v h _ w hv hh hcz hrest
      subst this
      simp at hw
      exact hw.symm
    · have := sep_prefix_nil v' h' _ w hv' hh' hcz' hrest
      subst this
      simp at hw
      exact hw
  subst huu
  have heq2 := List.append_cancel_left heq
  have heq3 := List.append_cancel_left heq2
  obtain ⟨e1, e2⟩ := digits_sep_cancel v v' h h' hv hv' heq3
  exact ⟨rfl, e1, e2⟩

/-- **C5.** Kernel naming is deterministic and collision-free: with the same
output base name, two instantiations generate equal kernel names exactly when
they agree on the user function's `uniqueName` and on the `(Varity, Harity)`
shape.  In particular names differ whenever `uniqueName` or the shape
differs, and identical inputs always reproduce the identical name. -/
theorem C5_kernel_name_uniqueness (base u₁ u₂ : String) (V₁ H₁ V₂ H₂ : Nat) :
    kernelName base u₁ V₁ H₁ = kernelName base u₂ V₂ H₂
      ↔ (u₁ = u₂ ∧ V₁ = V₂ ∧ H₁ = H₂) := by
  constructor
  · intro heq
    have hdata := congrArg String.data heq
    simp only [kernelName, String.data_append, List.append_assoc] at hdata
    have h1 := List.append_cancel_left hdata
    have h2 := List.append_cancel_left h1
    obtain ⟨e1, e2, e3⟩ := nameParts_inj _ _ _ _ _ _
      natDecimal_isDigit natDecimal_isDigit natDecimal_isDigit natDecimal_isDigit h2
    refine ⟨String.ext e1, ?_, ?_⟩
    · exact natDecimal_inj (String.ext e2)
    · exact natDecimal_inj (String.ext e3)
  · rintro ⟨rfl, rfl, rfl⟩
    rfl

/-- **C6 (counterexample).** The generated wrapper construct name is not
`"Wrapper_" ++ kernelName`: at a concrete instantiation the two differ. -/
theorem C6_wrapper_name_counterexample :
    className "prog" "f" 1 1 ≠ "Wrapper_" ++ kernelName "prog" "f" 1 1 := by
  decide

/-- **C6 (amended).** The host dispatch wrapper construct's name equals
`"CLWrapperClass_"` concatenated with the kernel name (mappairs_cl.cpp line
227). -/
theorem C6_wrapper_name (resultName uniqueName : String) (V H : Nat) :
    className resultName uniqueName V H
        = "CLWrapperClass_" ++ kernelName resultName uniqueName V H
    ∧ className resultName uniqueName V H
        = "CLWrapperClass_" ++ transformToCXXIdentifier resultName
          ++ "_MapPairsKernel_" ++ uniqueName
          ++ "_Varity_" ++ natDecimal V ++ "_Harity_" ++ natDecimal H := by
  refine ⟨rfl, ?_⟩
  apply String.ext
  simp only [className, kernelName, String.data_append, List.append_assoc]

/-!
## Container proxies

One pass over `mapFunc.anyContainerParams` (mappairs_cl.cpp lines 115-182)
collects the distinct proxy element types per container kind
(`containerProxyTypes[param.containerType].insert(param.resolvedTypeName)`,
line 120) and appends each parameter's proxy initializer to
`SSProxyInitializer`, or — for `MatRow` only — to `SSProxyInitializerInner`.
-/

/-- Modelled from the spec: `RandomAccessParam::TypeNameOpenCL()` (declared
outside `src/`) yields the in-kernel proxy type name for a container
parameter, determined by its kind and element type (spec section 4.1). -/
def TypeNameOpenCL (p : RandomAccessParam) : String :=
  (match p.containerType with
    | ContainerType.Vector => "skepu_vec_"
    | ContainerType.Matrix => "skepu_mat_"
    | ContainerType.MatRow => "skepu_matrow_"
    | ContainerType.Tensor3 => "skepu_ten3_"
    | ContainerType.Tensor4 => "skepu_ten4_"
    | ContainerType.SparseMatrix => "skepu_sparse_mat_") ++ p.resolvedTypeName

/-- The kernel-argument name of a container parameter
(`"skepu_container_" + param.name`, mappairs_cl.cpp line 117). -/
def containerName (p : RandomAccessParam) : String :=
  "skepu_container_" ++ p.name

/-- The proxy initializer statement the generator emits for a container
parameter, by kind (mappairs_cl.cpp lines 126, 132-133, 139, 147-148,
156-157, 173-177). -/
def proxyInitializerText (p : RandomAccessParam) : String :=
  match p.containerType with
  | ContainerType.Vector =>
      TypeNameOpenCL p ++ " " ++ p.name ++ " = \x7b .data = " ++ containerName p
        ++ ", .size = skepu_size_" ++ p.name ++ " \x7d;\n"
  | ContainerType.Matrix =>
      TypeNameOpenCL p ++ " " ++ p.name ++ " = \x7b .data = " ++ containerName p
        ++ ", .rows = skepu_rows_" ++ p.name ++ ", .cols = skepu_cols_" ++ p.name ++ " \x7d;\n"
  | ContainerType.MatRow =>
      TypeNameOpenCL p ++ " " ++ p.name ++ " = \x7b .data = (" ++ containerName p
        ++ " + i * skepu_cols_" ++ p.name ++ "), .cols = skepu_cols_" ++ p.name ++ " \x7d;\n"
  | ContainerType.Tensor3 =>
      TypeNameOpenCL p ++ " " ++ p.name ++ " = \x7b .data = " ++ containerName p
        ++ ", .size_i = skepu_size_i_" ++ p.name ++ ", .size_j = skepu_size_j_" ++ p.name
        ++ ", .size_k = skepu_size_k_" ++ p.name ++ " \x7d;\n"
  | ContainerType.Tensor4 =>
      TypeNameOpenCL p ++ " " ++ p.name ++ " = \x7b .data = " ++ containerName p
        ++ ", .size_i = skepu_size_i_" ++ p.name ++ ", .size_j = skepu_size_j_" ++ p.name
        ++ ", .size_k = skepu_size_k_" ++ p.name ++ ", .size_l = skepu_size_l_" ++ p.name
        ++ " \x7d;\n"
  | ContainerType.SparseMatrix =>
      TypeNameOpenCL p ++ " " ++ p.name ++ " = \x7b .data = " ++ containerName p
        ++ ", .row_offsets = " ++ p.name ++ "_row_pointers, .col_indices = " ++ p.name
        ++ "_col_indices, .count = skepu_size_" ++ p.name ++ " \x7d;\n"

/-- The `SSProxyInitializer` stream: the proxy initializers of all container
parameters except `MatRow` ones, in declaration order. -/
def SSProxyInitializer (params : List RandomAccessParam) : String :=
  String.join (params.map (fun p =>
    if p.containerType = ContainerType.MatRow then "" else proxyInitializerText p))

/-- The `SSProxyInitializerInner` stream: the proxy initializers of the
`MatRow` container parameters only, in declaration order
(mappairs_cl.cpp line 139). -/
def SSProxyInitializerInner (params : List RandomAccessParam) : String :=
  String.join (params.map (fun p =>
    if p.containerType = ContainerType.MatRow then proxyInitializerText p else ""))

/-- Set insertion into a duplicate-free list, modelling
`std::set<std::string>::insert` (iteration order of the C++ set — sorted —
is abstracted as insertion order; no verified property depends on the
order within one kind). -/
def insertUnique (s : List String) (x : String) : List String :=
  if x ∈ s then s else s ++ [x]

/-- The pass of mappairs_cl.cpp line 120 restricted to one kind `k`:
collect the distinct resolved element types of the parameters of kind `k`,
starting from the already-collected `acc`. -/
def cptFold (k : ContainerType) (acc : List String) : List RandomAccessParam → List String
  | [] => acc
  | p :: ps => cptFold k (if p.containerType = k then insertUnique acc p.resolvedTypeName else acc) ps

/-- `containerProxyTypes[k]`: the set of distinct proxy element types of
kind `k` collected over all container parameters. -/
def containerProxyTypes (params : List RandomAccessParam) (k : ContainerType) : List String :=
  cptFold k [] params

/-- Modelled from the spec: each `generateOpenCL*Proxy` helper (declared
outside `src/`) emits exactly one proxy type definition block for the given
element type (spec sections 2 and 4.1). -/
def generateOpenCLVectorProxy (t : String) : String :=
  "typedef struct \x7b __global " ++ t ++ " *data; size_t size; \x7d skepu_vec_" ++ t ++ ";\n"

/-- Modelled from the spec: one Matrix proxy type definition block. -/
def generateOpenCLMatrixProxy (t : String) : String :=
  "typedef struct \x7b __global " ++ t ++ " *data; size_t rows; size_t cols; \x7d skepu_mat_"
    ++ t ++ ";\n"

/-- Modelled from the spec: one SparseMatrix proxy type definition block. -/
def generateOpenCLSparseMatrixProxy (t : String) : String :=
  "typedef struct \x7b __global " ++ t
    ++ " *data; __global size_t *row_offsets; __global size_t *col_indices; size_t count; \x7d skepu_sparse_mat_"
    ++ t ++ ";\n"

/-- Modelled from the spec: one MatrixRow proxy type definition block. -/
def generateOpenCLMatrixRowProxy (t : String) : String :=
  "typedef struct \x7b __global " ++ t ++ " *data; size_t cols; \x7d skepu_matrow_" ++ t ++ ";\n"

/-- Modelled from the spec: one Tensor3 proxy type definition block. -/
def generateOpenCLTensor3Proxy (t : String) : String :=
  "typedef struct \x7b __global " ++ t
    ++ " *data; size_t size_i; size_t size_j; size_t size_k; \x7d skepu_ten3_" ++ t ++ ";\n"

/-- Modelled from the spec: one Tensor4 proxy type definition block. -/
def generateOpenCLTensor4Proxy (t : String) : String :=
  "typedef struct \x7b __global " ++ t
    ++ " *data; size_t size_i; size_t size_j; size_t size_k; size_t size_l; \x7d skepu_ten4_"
    ++ t ++ ";\n"

/-- The proxy definition generator for one kind. -/
def proxyDefFor : ContainerType → String → String
  | ContainerType.Vector => generateOpenCLVectorProxy
  | ContainerType.Matrix => generateOpenCLMatrixProxy
  | ContainerType.SparseMatrix => generateOpenCLSparseMatrixProxy
  | ContainerType.MatRow => generateOpenCLMatrixRowProxy
  | ContainerType.Tensor3 => generateOpenCLTensor3Proxy
  | ContainerType.Tensor4 => generateOpenCLTensor4Proxy

/-- The order in which the six proxy emission loops run
(mappairs_cl.cpp lines 197-213): Vector, Matrix, SparseMatrix, MatrixRow,
Tensor3, Tensor4. -/
def proxyKindOrder : List ContainerType :=
  [ContainerType.Vector, ContainerType.Matrix, ContainerType.SparseMatrix,
   ContainerType.MatRow, ContainerType.Tensor3, ContainerType.Tensor4]

/-- The proxy definition blocks emitted into the generated source, one
generator call per collected element type, in the loop order of lines
197-213. -/
def emittedProxyDefs (params : List RandomAccessParam) : List String :=
  proxyKindOrder.flatMap (fun k => (containerProxyTypes params k).map (proxyDefFor k))

/-- The `(kind, element type)` keys of the emitted proxy definitions, in
emission order. -/
def kindKeys (params : List RandomAccessParam) (k : ContainerType) :
    List (ContainerType × String) :=
  (containerProxyTypes params k).map (fun t => (k, t))

/-- All emitted proxy keys in emission order. -/
def emittedProxyKeys (params : List RandomAccessParam) : List (ContainerType × String) :=
  proxyKindOrder.flatMap (fun k => kindKeys params k)

lemma insertUnique_mem {s : List String} {x y : String} :
    y ∈ insertUnique s x ↔ y ∈ s ∨ y = x := by
  unfold insertUnique
  by_cases h : x ∈ s
  · rw [if_pos h]
    constructor
    · exact Or.inl
    · rintro (hy | rfl)
      · exact hy
      · exact h
  · rw [if_neg h]
    simp

lemma insertUnique_nodup {s : List String} {x : String} (hs : s.Nodup) :
    (insertUnique s x).Nodup := by
  unfold insertUnique
  by_cases h : x ∈ s
  · rwa [if_pos h]
  · rw [if_neg h]
    exact List.Nodup.append hs (List.nodup_singleton x) (by simpa using h)

lemma cptFold_mem {k : ContainerType} {x : String} :
    ∀ (ps : List RandomAccessParam) (acc : List String),
      x ∈ cptFold k acc ps
        ↔ x ∈ acc ∨ ∃ p ∈ ps, p.containerType = k ∧ p.resolvedTypeName = x := by
  intro ps
  induction ps with
  | nil => intro acc; simp [cptFold]
  | cons p rest ih =>
      intro acc
      rw [cptFold, ih]
      by_cases hp : p.containerType = k
      · rw [if_pos hp]
        simp only [insertUnique_mem, List.mem_cons]
        constructor
        · rintro ((hx | rfl) | ⟨q, hq, h1, h2⟩)
          · exact Or.inl hx
          · exact Or.inr ⟨p, Or.inl rfl, hp, rfl⟩
          · exact Or.inr ⟨q, Or.inr hq, h1, h2⟩
        · rintro (hx | ⟨q, (rfl | hq), h1, h2⟩)
          · exact Or.inl (Or.inl hx)
          · exact Or.inl (Or.inr h2.symm)
          · exact Or.inr ⟨q, hq, h1, h2⟩
      · rw [if_neg hp]
        constructor
        · rintro (hx | ⟨q, hq, h1, h2⟩)
          · exact Or.inl hx
          · exact Or.inr ⟨q, List.mem_cons_of_mem _ hq, h1, h2⟩
        · rintro (hx | ⟨q, hq, h1, h2⟩)
          · exact Or.inl hx
          · rcases List.mem_cons.mp hq with rfl | hq
            · exact absurd h1 hp
            · exact Or.inr ⟨q, hq, h1, h2⟩

lemma cptFold_nodup {k : ContainerType} :
    ∀ (ps : List RandomAccessParam) (acc : List String),
      acc.Nodup → (cptFold k acc ps).Nodup := by
  intro ps
  induction ps with
  | nil => intro acc h; exact h
  | cons p rest ih =>
      intro acc h
      rw [cptFold]
      by_cases hp : p.containerType = k
      · rw [if_pos hp]
        exact ih _ (insertUnique_nodup h)
      · rw [if_neg hp]
        exact ih _ h

lemma containerProxyTypes_mem {params : List RandomAccessParam} {k : ContainerType}
    {x : String} :
    x ∈ containerProxyTypes params k
      ↔ ∃ p ∈ params, p.containerType = k ∧ p.resolvedTypeName = x := by
  rw [containerProxyTypes, cptFold_mem]
  simp

lemma containerProxyTypes_nodup {params : List RandomAccessParam} {k : ContainerType} :
    (containerProxyTypes params k).Nodup :=
  cptFold_nodup params [] List.nodup_nil

lemma mem_kindKeys_fst {params : List RandomAccessParam} {k : ContainerType}
    {x : ContainerType × String} (hx : x ∈ kindKeys params k) : x.1 = k := by
  obtain ⟨t, -, rfl⟩ := List.mem_map.mp hx
  rfl

lemma kindKeys_nodup {params : List RandomAccessParam} {k : ContainerType} :
    (kindKeys params k).Nodup :=
  List.Nodup.map (fun _ _ h => congrArg Prod.snd h) containerProxyTypes_nodup

lemma emittedProxyKeys_nodup (params : List RandomAccessParam) :
    (emittedProxyKeys params).Nodup := by
  have main : ∀ ks : List ContainerType, ks.Nodup →
      (ks.flatMap (fun k => kindKeys params k)).Nodup := by
    intro ks
    induction ks with
    | nil => intro _; simp
    | cons k rest ih =>
        intro hk
        rw [List.flatMap_cons]
        refine List.Nodup.append kindKeys_nodup (ih (List.nodup_cons.mp hk).2) ?_
        intro x hx hx'
        obtain ⟨k', hk', hxk'⟩ := List.mem_flatMap.mp hx'
        have e1 := mem_kindKeys_fst hx
        have e2 := mem_kindKeys_fst hxk'
        rw [e1] at e2
        rw [← e2] at hk'
        exact (List.nodup_cons.mp hk).1 hk'
  exact main proxyKindOrder (by decide)

lemma emittedProxyKeys_mem {params : List RandomAccessParam}
    {x : ContainerType × String} :
    x ∈ emittedProxyKeys params
      ↔ x ∈ params.map (fun p => (p.containerType, p.resolvedTypeName)) := by
  rw [emittedProxyKeys, List.mem_flatMap]
  constructor
  · rintro ⟨k, -, hx⟩
    obtain ⟨t, ht, rfl⟩ := List.mem_map.mp hx
    obtain ⟨p, hp, h1, h2⟩ := containerProxyTypes_mem.mp ht
    exact List.mem_map.mpr ⟨p, hp, by rw [h1, h2]⟩
  · intro hx
    obtain ⟨p, hp, rfl⟩ := List.mem_map.mp hx
    refine ⟨p.containerType, by cases p.containerType <;> decide, ?_⟩
    exact List.mem_map.mpr ⟨p.resolvedTypeName,
      containerProxyTypes_mem.mpr ⟨p, hp, rfl, rfl⟩, rfl⟩

/-- **C3.** The number of proxy type definitions emitted into the generated
source equals the number of distinct `(kind, element type)` pairs among the
container parameters, and the emitted keys are pairwise distinct — at most
one proxy definition per key per artifact. -/
theorem C3_proxy_dedup (params : List RandomAccessParam) :
    (emittedProxyDefs params).length
      = ((params.map (fun p => (p.containerType, p.resolvedTypeName))).dedup).length
    ∧ (emittedProxyKeys params).Nodup := by
  refine ⟨?_, emittedProxyKeys_nodup params⟩
  have hlen : (emittedProxyDefs params).length = (emittedProxyKeys params).length := by
    simp only [emittedProxyDefs, emittedProxyKeys, kindKeys, List.length_flatMap]
    congr 1
    apply List.map_congr_left
    intro k _
    simp [List.length_map]
  rw [hlen, ← List.card_toFinset, ← List.toFinset_card_of_nodup (emittedProxyKeys_nodup params)]
  congr 1
  ext a
  simp only [List.mem_toFinset]
  exact emittedProxyKeys_mem

/-!
## The assembled kernel function and proxy placement (C4)

`MapPairsKernelTemplate_CL` (mappairs_cl.cpp lines 9-24) with the placeholder
substitutions of lines 232-243 applied.  The substitution values contain no
placeholder tokens, so sequential whole-buffer replacement (flagged as an
open risk in the design notes) coincides with structural slot filling.
-/

/-- One kernel-side parameter-list fragment for a container parameter
(mappairs_cl.cpp lines 124, 130, 137, 143-144, 152-153, 161-165). -/
def kernelParamText (p : RandomAccessParam) : String :=
  match p.containerType with
  | ContainerType.Vector =>
      "__global " ++ p.resolvedTypeName ++ " *" ++ containerName p
        ++ ", size_t skepu_size_" ++ p.name ++ ", "
  | ContainerType.Matrix =>
      "__global " ++ p.resolvedTypeName ++ " *" ++ containerName p
        ++ ", size_t skepu_rows_" ++ p.name ++ ", size_t skepu_cols_" ++ p.name ++ ", "
  | ContainerType.MatRow =>
      "__global " ++ p.resolvedTypeName ++ " *" ++ containerName p
        ++ ", size_t skepu_cols_" ++ p.name ++ ", "
  | ContainerType.Tensor3 =>
      "__global " ++ p.resolvedTypeName ++ " *" ++ containerName p
        ++ ", size_t skepu_size_i_" ++ p.name ++ ", size_t skepu_size_j_" ++ p.name
        ++ ", size_t skepu_size_k_" ++ p.name ++ ", "
  | ContainerType.Tensor4 =>
      "__global " ++ p.resolvedTypeName ++ " *" ++ containerName p
        ++ ", size_t skepu_size_i_" ++ p.name ++ ", size_t skepu_size_j_" ++ p.name
        ++ ", size_t skepu_size_k_" ++ p.name ++ ", size_t skepu_size_l_" ++ p.name ++ ", "
  | ContainerType.SparseMatrix =>
      "__global " ++ p.resolvedTypeName ++ " *" ++ containerName p
        ++ ", __global size_t *" ++ p.name ++ "_row_pointers, __global size_t *" ++ p.name
        ++ "_col_indices, size_t skepu_size_" ++ p.name ++ ", "

/-- The `SSKernelParamList` text: elementwise pointers, container data
pointers with their size fields, then scalars (lines 105, 121-179, 187). -/
def SSKernelParamList (uf : UserFunction) : String :=
  String.join (uf.elwiseParams.map
      (fun p => "__global " ++ p.resolvedTypeName ++ " *" ++ p.name ++ ", "))
    ++ String.join (uf.anyContainerParams.map kernelParamText)
    ++ String.join (uf.anyScalarParams.map
      (fun p => p.resolvedTypeName ++ " " ++ p.name ++ ", "))

/-- The template text from its start through the `SKEPU_CONTAINER_PROXIES`
slot (template lines 10-14, placeholders substituted). -/
def kernelHeadText (uf : UserFunction) (kName : String) : String :=
  "\n__kernel void " ++ kName ++ "(" ++ SSKernelParamList uf ++ " __global "
    ++ uf.resolvedReturnTypeName
    ++ "* output, size_t w, size_t n, size_t Vsize, size_t Hsize, size_t base)\n\x7b\n\tsize_t i = get_global_id(0);\n\tsize_t gridSize = get_local_size(0) * get_num_groups(0);\n\t"

/-- The template text between the `SKEPU_CONTAINER_PROXIES` slot and the
`SKEPU_CONTAINER_PROXIE_INNER` slot: it opens the `while (i < n)` loop, so
everything after it up to the loop's closing brace is re-executed on every
iteration (template lines 15-19). -/
def kernelLoopHeadText (uf : UserFunction) : String :=
  "\n\t\n\twhile (i < n)\n\t\x7b\n\t\t" ++ indexInitializer uf ++ "\n\t\t"

/-- The template text after the `SKEPU_CONTAINER_PROXIE_INNER` slot: the
user-function call, the stride advance, and the closing braces of the loop
and the kernel (template lines 20-23). -/
def kernelLoopTailText (uf : UserFunction) : String :=
  "\n\t\toutput[i] = " ++ uf.uniqueName ++ "(" ++ SSMapFuncParams uf
    ++ ");\n\t\ti += gridSize;\n\t\x7d\n\x7d\n"

/-- The complete kernel function text: `SSProxyInitializer` is spliced before
the loop, `SSProxyInitializerInner` inside the loop body. -/
def kernelFunctionText (uf : UserFunction) (kName : String) : String :=
  kernelHeadText uf kName
    ++ SSProxyInitializer uf.anyContainerParams
    ++ kernelLoopHeadText uf
    ++ SSProxyInitializerInner uf.anyContainerParams
    ++ kernelLoopTailText uf

/-- `occursIn a s`: the text `a` appears as a contiguous substring of `s`. -/
def occursIn (a s : String) : Prop :=
  ∃ x y, s = x ++ (a ++ y)

lemma join_cons (s : String) (l : List String) :
    String.join (s :: l) = s ++ String.join l := by
  apply String.ext
  simp

lemma occursIn_join : ∀ (l : List String) (s : String), s ∈ l → occursIn s (String.join l) := by
  intro l
  induction l with
  | nil => intro s hs; simp at hs
  | cons a rest ih =>
      intro s hs
      rw [join_cons]
      rcases List.mem_cons.mp hs with rfl | hs
      · exact ⟨"", String.join rest, (String.empty_append _).symm⟩
      · obtain ⟨u, v, huv⟩ := ih s hs
        exact ⟨a ++ u, v, by rw [huv, String.append_assoc]⟩

/-- **C4.** For a user function with at least one MatrixRow container
parameter: every MatrixRow parameter's proxy initializer text is part of
`SSProxyInitializerInner`, which the template splices inside the while-loop
body (recomputed with the current `i` each iteration), while every other
container parameter's initializer is part of `SSProxyInitializer`, spliced
before the loop and run once per worker. -/
theorem C4_matrow_proxy_placement (uf : UserFunction) (kName : String)
    (_hmr : ∃ p ∈ uf.anyContainerParams, p.containerType = ContainerType.MatRow) :
    (∀ p ∈ uf.anyContainerParams,
        (p.containerType = ContainerType.MatRow →
          occursIn (proxyInitializerText p) (SSProxyInitializerInner uf.anyContainerParams))
      ∧ (p.containerType ≠ ContainerType.MatRow →
          occursIn (proxyInitializerText p) (SSProxyInitializer uf.anyContainerParams)))
    ∧ kernelFunctionText uf kName
        = kernelHeadText uf kName
            ++ SSProxyInitializer uf.anyContainerParams
            ++ kernelLoopHeadText uf
            ++ SSProxyInitializerInner uf.anyContainerParams
            ++ kernelLoopTailText uf := by
  refine ⟨?_, rfl⟩
  intro p hp
  constructor
  · intro hmat
    have hmem : (if p.containerType = ContainerType.MatRow
          then proxyInitializerText p else "")
        ∈ (uf.anyContainerParams.map (fun p =>
            if p.containerType = ContainerType.MatRow then proxyInitializerText p else "")) :=
      List.mem_map_of_mem _ hp
    rw [if_pos hmat] at hmem
    exact occursIn_join _ _ hmem
  · intro hmat
    have hmem : (if p.containerType = ContainerType.MatRow
          then "" else proxyInitializerText p)
        ∈ (uf.anyContainerParams.map (fun p =>
            if p.containerType = ContainerType.MatRow then "" else proxyInitializerText p)) :=
      List.mem_map_of_mem _ hp
    rw [if_neg hmat] at hmem
    exact occursIn_join _ _ hmem

/-- The MatrixRow scenario: one MatrixRow parameter `mr` and one Vector
parameter `v`. -/
def scenarioMatRowUF : UserFunction :=
  { uniqueName := "uf3"
    resolvedReturnTypeName := "float"
    indexed1D := false
    indexed2D := false
    requiresDoublePrecision := false
    Varity := 1
    elwiseParams := []
    anyContainerParams :=
      [⟨"mr", "float", ContainerType.MatRow⟩, ⟨"v", "float", ContainerType.Vector⟩]
    anyScalarParams := []
    ReferencedUTs := [] }

/-- Witness for C4 at the concrete MatrixRow scenario function. -/
theorem C4_matrow_proxy_placement_witness :
    (∃ p ∈ scenarioMatRowUF.anyContainerParams,
        p.containerType = ContainerType.MatRow)
    ∧ ((∀ p ∈ scenarioMatRowUF.anyContainerParams,
          (p.containerType = ContainerType.MatRow →
            occursIn (proxyInitializerText p)
              (SSProxyInitializerInner scenarioMatRowUF.anyContainerParams))
        ∧ (p.containerType ≠ ContainerType.MatRow →
            occursIn (proxyInitializerText p)
              (SSProxyInitializer scenarioMatRowUF.anyContainerParams)))
      ∧ kernelFunctionText scenarioMatRowUF "kern"
          = kernelHeadText scenarioMatRowUF "kern"
              ++ SSProxyInitializer scenarioMatRowUF.anyContainerParams
              ++ kernelLoopHeadText scenarioMatRowUF
              ++ SSProxyInitializerInner scenarioMatRowUF.anyContainerParams
              ++ kernelLoopTailText scenarioMatRowUF) :=
  ⟨⟨⟨"mr", "float", ContainerType.MatRow⟩, by decide⟩,
    C4_matrow_proxy_placement scenarioMatRowUF "kern"
      ⟨⟨"mr", "float", ContainerType.MatRow⟩, by decide⟩⟩

/-!
## The assembled kernel program source (`sourceStream`, lines 194-229)
-/

/-- The double-precision enable directive (mappairs_cl.cpp line 195). -/
def pragmaText : String :=
  "#pragma OPENCL EXTENSION cl_khr_fp64: enable\n"

/-- The `#define` line emitted for one user constant
(mappairs_cl.cpp line 217). -/
def constantDefineLine (c : UserConstant) : String :=
  "#define " ++ c.name ++ " (" ++ c.definition ++ ") // " ++ c.typeName ++ "\n"

/-- The `#define` lines in the order the constants are iterated. -/
def emittedConstantLines (iter : List UserConstant) : List String :=
  iter.map constantDefineLine

/-- The user-constant section of the source (mappairs_cl.cpp lines 216-217). -/
def constantsSection (iter : List UserConstant) : String :=
  String.join (emittedConstantLines iter)

/-- Modelled from the spec: `generateUserTypeCode_CL` (declared outside
`src/`) emits the textual definition recorded for a referenced user type. -/
def generateUserTypeCode_CL (ut : UserType) : String :=
  ut.definitionText ++ "\n"

/-- The referenced-user-type section (mappairs_cl.cpp lines 221-222). -/
def userTypesSection (uf : UserFunction) : String :=
  String.join (uf.ReferencedUTs.map generateUserTypeCode_CL)

/-- Modelled from the spec: `KernelPredefinedTypes_CL` (declared outside
`src/`) holds the index struct types predefined for every kernel. -/
def KernelPredefinedTypes_CL : String :=
  "typedef struct \x7b size_t i; \x7d index1_t;\ntypedef struct \x7b size_t row; size_t col; \x7d index2_t;\n"

/-- Modelled from the spec: `generateUserFunctionCode_CL` (declared outside
`src/`) renders the user function itself in OpenCL C; its precise body text
is irrelevant to the verified properties. -/
def generateUserFunctionCode_CL (uf : UserFunction) : String :=
  "static " ++ uf.resolvedReturnTypeName ++ " " ++ uf.uniqueName
    ++ "(/* parameters */) \x7b /* user function body */ \x7d\n"

/-- The proxy definition section of the source (mappairs_cl.cpp lines
197-213): the emitted proxy definition blocks in the six-loop order. -/
def proxySection (params : List RandomAccessParam) : String :=
  String.join (emittedProxyDefs params)

/-- The complete generated kernel source (the final content of
`sourceStream`, mappairs_cl.cpp lines 194-229): optional precision pragma,
proxy definitions, user-constant `#define`s, referenced user types, the
predefined kernel types, the user function, and the kernel function text.
`consts` is the iteration sequence of the global `UserConstants` registry. -/
def kernelProgramSource (uf : UserFunction) (consts : List UserConstant)
    (kName : String) : String :=
  (if uf.requiresDoublePrecision then pragmaText else "")
    ++ proxySection uf.anyContainerParams
    ++ constantsSection consts
    ++ userTypesSection uf
    ++ KernelPredefinedTypes_CL
    ++ generateUserFunctionCode_CL uf
    ++ kernelFunctionText uf kName

/-- **C8.** With `requiresDoublePrecision` set, the generated kernel source
begins with the double-precision enable pragma, placed before the proxy
definitions, the user constant and user type definitions, and the kernel
body; and every Matrix container parameter's proxy definition lies within
the proxy section, which precedes the kernel body in the decomposition. -/
theorem C8_precision_pragma (uf : UserFunction) (consts : List UserConstant)
    (kName : String) (h : uf.requiresDoublePrecision = true) :
    kernelProgramSource uf consts kName
      = pragmaText
          ++ (proxySection uf.anyContainerParams
            ++ (constantsSection consts
              ++ (userTypesSection uf
                ++ (KernelPredefinedTypes_CL
                  ++ (generateUserFunctionCode_CL uf
                    ++ kernelFunctionText uf kName)))))
    ∧ (∀ p ∈ uf.anyContainerParams, p.containerType = ContainerType.Matrix →
        occursIn (generateOpenCLMatrixProxy p.resolvedTypeName)
          (proxySection uf.anyContainerParams)) := by
  constructor
  · rw [kernelProgramSource, if_pos h]
    simp [String.append_assoc]
  · intro p hp hmat
    apply occursIn_join
    unfold emittedProxyDefs
    refine List.mem_flatMap.mpr ⟨ContainerType.Matrix, by decide, ?_⟩
    refine List.mem_map.mpr ⟨p.resolvedTypeName, ?_, rfl⟩
    exact containerProxyTypes_mem.mpr ⟨p, hp, hmat, rfl⟩

/-- The precision-pragma scenario: `requiresDoublePrecision` with one Matrix
container parameter. -/
def scenarioPragmaUF : UserFunction :=
  { uniqueName := "uf4"
    resolvedReturnTypeName := "double"
    indexed1D := false
    indexed2D := false
    requiresDoublePrecision := true
    Varity := 1
    elwiseParams := []
    anyContainerParams := [⟨"m", "double", ContainerType.Matrix⟩]
    anyScalarParams := []
    ReferencedUTs := [] }

/-- Witness for C8 at the concrete precision-pragma scenario. -/
theorem C8_precision_pragma_witness :
    scenarioPragmaUF.requiresDoublePrecision = true
    ∧ (kernelProgramSource scenarioPragmaUF [] "kern"
        = pragmaText
            ++ (proxySection scenarioPragmaUF.anyContainerParams
              ++ (constantsSection []
                ++ (userTypesSection scenarioPragmaUF
                  ++ (KernelPredefinedTypes_CL
                    ++ (generateUserFunctionCode_CL scenarioPragmaUF
                      ++ kernelFunctionText scenarioPragmaUF "kern")))))
      ∧ (∀ p ∈ scenarioPragmaUF.anyContainerParams,
          p.containerType = ContainerType.Matrix →
          occursIn (generateOpenCLMatrixProxy p.resolvedTypeName)
            (proxySection scenarioPragmaUF.anyContainerParams))) :=
  ⟨rfl, C8_precision_pragma scenarioPragmaUF [] "kern" rfl⟩

/-!
## User constants (C9)

`UserConstants` is a process-wide `std::unordered_map` keyed by front-end
declaration nodes (skepu.cpp line 46); the generator iterates it on
mappairs_cl.cpp lines 216-217.  An unordered hash map enumerates its entries
in an unspecified order: the generator is only guaranteed to see *some*
permutation of the discovered constants, not discovery order.
-/

/-- A first discovered constant. -/
def constA : UserConstant := ⟨"A", "1", "int"⟩

/-- A second discovered constant. -/
def constB : UserConstant := ⟨"B", "2", "int"⟩

/-- **C9 (counterexample).** Emission order is the hash container's
iteration order, not discovery order: with constants discovered in the order
`[A, B]` but enumerated as `[B, A]` (a legal unordered-map enumeration of
the same two constants), the emitted `#define` text differs from the
discovery-order text. -/
theorem C9_discovery_order_counterexample :
    List.Perm [constB, constA] [constA, constB]
    ∧ constantsSection [constB, constA] ≠ constantsSection [constA, constB] := by
  exact ⟨List.Perm.swap constA constB [], by decide⟩

/-- **C9 (amended).** Every user-declared constant is emitted exactly once
as a preprocessor `#define` line; the emission order is the registry's
iteration order, a permutation of the discovered constants (not necessarily
discovery order). -/
theorem C9_constants_emitted (discovered iter : List UserConstant)
    (hperm : List.Perm iter discovered) :
    List.Perm (emittedConstantLines iter) (emittedConstantLines discovered)
    ∧ constantsSection iter = String.join (emittedConstantLines iter)
    ∧ ∀ c ∈ discovered, constantDefineLine c ∈ emittedConstantLines iter := by
  refine ⟨hperm.map constantDefineLine, rfl, ?_⟩
  intro c hc
  exact List.mem_map_of_mem _ (hperm.mem_iff.mpr hc)

/-- Witness for C9 at the two-constant enumeration `[B, A]` of the discovery
order `[A, B]`. -/
theorem C9_constants_emitted_witness :
    List.Perm [constB, constA] [constA, constB]
    ∧ (List.Perm (emittedConstantLines [constB, constA])
          (emittedConstantLines [constA, constB])
      ∧ constantsSection [constB, constA]
          = String.join (emittedConstantLines [constB, constA])
      ∧ ∀ c ∈ [constA, constB],
          constantDefineLine c ∈ emittedConstantLines [constB, constA]) :=
  ⟨List.Perm.swap constA constB [],
    C9_constants_emitted [constA, constB] [constB, constA]
      (List.Perm.swap constA constB [])⟩

/-!
## The host dispatch wrapper (C10)

The `Constructor` template (mappairs_cl.cpp lines 27-78): a static table of
8 compiled-kernel handles accessed through `kernels(deviceID, newkernel)`
(lines 32-41, no bounds check) and the flag-guarded `initialize()`
(lines 43-64).
-/

/-- The wrapper's mutable state: the `initialized` flag and the static
kernel table `arr` (capacity 8). -/
structure WrapperState (α : Type) where
  initialized : Bool
  arr : List (Option α)

/-- The state before the first `initialize()` call: flag unset,
zero-initialized static table of capacity 8. -/
def initialState (α : Type) : WrapperState α :=
  ⟨false, List.replicate 8 none⟩

/-- The store path of `kernels(deviceID, &newkernel)` (lines 35-39):
`arr[deviceID] = *newkernel` with no bounds check — an out-of-capacity
ordinal is an out-of-bounds write, modelled as `none`. -/
def kernelsStore {α : Type} (s : WrapperState α) (deviceID : Nat) (k : α) :
    Option (WrapperState α) :=
  if deviceID < 8 then some { s with arr := s.arr.set deviceID (some k) } else none

/-- The device loop of `initialize()` (lines 52-61): compile the program for
each device in turn and store the kernel at the next counter ordinal. -/
def storeAll {α δ : Type} (compile : δ → α) :
    List δ → Nat → WrapperState α → Option (WrapperState α)
  | [], _, s => some s
  | d :: rest, counter, s =>
      match kernelsStore s counter (compile d) with
      | none => none
      | some s' => storeAll compile rest (counter + 1) s'

/-- `initialize()` (lines 43-64): returns immediately when the flag is set;
otherwise builds one kernel per registered device, stores them at ordinals
`0..d-1`, and sets the flag. -/
def initKernels {α δ : Type} (compile : δ → α) (devices : List δ)
    (s : WrapperState α) : Option (WrapperState α) :=
  if s.initialized then some s
  else
    match storeAll compile devices 0 s with
    | none => none
    | some s' => some { s' with initialized := true }

lemma storeAll_spec {α δ : Type} (compile : δ → α) :
    ∀ (devs : List δ) (c : Nat) (s : WrapperState α),
      c + devs.length ≤ 8 → s.arr.length = 8 →
      ∃ s', storeAll compile devs c s = some s'
        ∧ s'.initialized = s.initialized
        ∧ s'.arr.length = 8
        ∧ (∀ i, i < c → s'.arr[i]? = s.arr[i]?)
        ∧ (∀ j d, devs[j]? = some d → s'.arr[c + j]? = some (some (compile d))) := by
  intro devs
  induction devs with
  | nil =>
      intro c s _ hlen
      exact ⟨s, rfl, rfl, hlen, fun _ _ => rfl, fun j d hj => by simp at hj⟩
  | cons d rest ih =>
      intro c s hc hlen
      have hc8 : c < 8 := by simp [List.length_cons] at hc; omega
      have hstep : kernelsStore s c (compile d)
          = some { s with arr := s.arr.set c (some (compile d)) } := by
        rw [kernelsStore, if_pos hc8]
      obtain ⟨s', hrun, hinit, hlen', hlow, hhi⟩ :=
        ih (c + 1) { s with arr := s.arr.set c (some (compile d)) }
          (by simp [List.length_cons] at hc; omega) (by simpa using hlen)
      refine ⟨s', ?_, hinit, hlen', ?_, ?_⟩
      · rw [storeAll, hstep]
        exact hrun
      · intro i hi
        rw [hlow i (by omega)]
        exact List.getElem?_set_ne (by omega)
      · intro j e hj
        cases j with
        | zero =>
            simp only [List.getElem?_cons_zero, Option.some.injEq] at hj
            subst hj
            rw [Nat.add_zero, hlow c (by omega)]
            simp only []
            rw [List.getElem?_set_self (by omega)]
        | succ j' =>
            simp only [List.getElem?_cons_succ] at hj
            have := hhi j' e hj
            rw [show c + (j' + 1) = c + 1 + j' by omega]
            exact this

/-- **C10.** With at most 8 registered compute devices (the static table's
hard-coded capacity), the first `initialize()` call succeeds, storing one
compiled kernel per device at consecutive ordinals `0..d-1` and setting the
flag, and every subsequent call is a no-op returning the state unchanged;
the unchecked table access makes the precondition necessary: a store at any
ordinal `≥ 8` is out of bounds. -/
theorem C10_wrapper_init {α δ : Type} (compile : δ → α)
    (devices : List δ) (hlen : devices.length ≤ 8) :
    (∃ s', initKernels compile devices (initialState α) = some s'
      ∧ s'.initialized = true
      ∧ (∀ (i : Nat) (d : δ), devices[i]? = some d → s'.arr[i]? = some (some (compile d)))
      ∧ initKernels compile devices s' = some s')
    ∧ (∀ (s : WrapperState α) (d : Nat) (k : α), 8 ≤ d → kernelsStore s d k = none) := by
  constructor
  · obtain ⟨s', hrun, hinit, hlen', hlow, hhi⟩ :=
      storeAll_spec compile devices 0 (initialState α) (by omega) (by simp [initialState])
    refine ⟨{ s' with initialized := true }, ?_, rfl, ?_, ?_⟩
    · rw [initKernels, if_neg (by simp [initialState]), hrun]
    · intro i d hd
      simpa using hhi i d hd
    · rw [initKernels, if_pos rfl]
  · intro s d k hd
    rw [kernelsStore, if_neg (by omega)]

/-- Witness for C10 with three devices and `Nat`-valued handles. -/
theorem C10_wrapper_init_witness :
    ([10, 20, 30] : List Nat).length ≤ 8
    ∧ ((∃ s', initKernels (fun d : Nat => d + 1) [10, 20, 30] (initialState Nat) = some s'
        ∧ s'.initialized = true
        ∧ (∀ (i : Nat) (d : Nat), ([10, 20, 30] : List Nat)[i]? = some d →
            s'.arr[i]? = some (some (d + 1)))
        ∧ initKernels (fun d : Nat => d + 1) [10, 20, 30] s' = some s')
      ∧ (∀ (s : WrapperState Nat) (d : Nat) (k : Nat), 8 ≤ d →
          kernelsStore s d k = none)) :=
  ⟨by decide, C10_wrapper_init (fun d : Nat => d + 1) [10, 20, 30] (by decide)⟩

end SkePU
